import Mathlib

/-!
Shallow embedding of `chainer/functions/tensor_network.py` (class
`TensorNetwork`) and verification of its specification.

Arrays of 32-bit floats are modelled as `Fin`-indexed functions into `ℤ`
(exact arithmetic).  Optional parameters (`V1`, `V2`, `b`) and optional
gradient buffers (`gV1`, `gV2`, `gb`) are `Option`s: `none` models the
Python attribute being `None`.  `numpy.empty_like` allocates uninitialized
memory, so `init` receives the allocator contents (`memW`, `memV1`, ...)
as explicit arguments.  Operations that would raise a Python exception on
a `None` attribute (e.g. `self.gV1 += ...` with `gV1 is None`) return
`Option.none`.
-/

namespace TensorNet

/-- A batch-free vector of length `n`. -/
abbrev Vec (n : ℕ) := Fin n → ℤ

/-- A matrix with `m` rows and `n` columns. -/
abbrev Mat (m n : ℕ) := Fin m → Fin n → ℤ

/-- A 3-index tensor of shape `(a, b, c)`. -/
abbrev Ten (a b c : ℕ) := Fin a → Fin b → Fin c → ℤ

/-- The state of a `TensorNetwork` layer: parameters `W`, `V1`, `V2`, `b`
and gradient accumulators `gW`, `gV1`, `gV2`, `gb`
(source: `TensorNetwork.__init__`, attributes set on `self`). -/
structure TensorNetwork (d1 d2 out : ℕ) where
  W : Ten d1 d2 out
  V1 : Option (Mat d1 out)
  V2 : Option (Mat d2 out)
  b : Option (Vec out)
  gW : Ten d1 d2 out
  gV1 : Option (Mat d1 out)
  gV2 : Option (Mat d2 out)
  gb : Option (Vec out)
deriving DecidableEq

namespace TensorNetwork

/-- `TensorNetwork.__init__`.  `initialW`/`initial_bias` are the optional
explicit initializers; `sampledW` stands for the random normal draw used
when `initialW` is absent; `memW`, `memV1`, `memV2`, `memb` are the
contents of the uninitialized buffers returned by `numpy.empty_like`. -/
def init (d1 d2 out : ℕ) (nobias : Bool)
    (initialW : Option (Ten d1 d2 out))
    (initial_bias : Option (Mat d1 out × Mat d2 out × Vec out))
    (sampledW : Ten d1 d2 out)
    (memW : Ten d1 d2 out) (memV1 : Mat d1 out) (memV2 : Mat d2 out)
    (memb : Vec out) : TensorNetwork d1 d2 out :=
  let W : Ten d1 d2 out :=
    match initialW with
    | some w => w
    | none => sampledW
  let V1V2b : Option (Mat d1 out) × Option (Mat d2 out) × Option (Vec out) :=
    match initial_bias with
    | some (v1, v2, bb) => (some v1, some v2, some bb)
    | none =>
        if nobias then (none, none, none)
        else (some (fun _ _ => 0), some (fun _ _ => 0), some (fun _ => 0))
  { W := W
    V1 := V1V2b.1
    V2 := V1V2b.2.1
    b := V1V2b.2.2
    gW := memW
    gV1 := if nobias then none else some memV1
    gV2 := if nobias then none else some memV2
    gb := if nobias then none else some memb }

/-- `TensorNetwork.parameter_names` (property).  Returns `none` when one of
the `assert` statements would fire (`b` present but `V1` or `V2` absent). -/
def parameter_names {d1 d2 out : ℕ} (t : TensorNetwork d1 d2 out) :
    Option (List String) :=
  match t.b with
  | none => some ["W"]
  | some _ =>
      if t.V1.isSome && t.V2.isSome then some ["W", "V1", "V2", "b"] else none

/-- `TensorNetwork.gradient_names` (property).  Returns `none` when one of
the `assert` statements would fire. -/
def gradient_names {d1 d2 out : ℕ} (t : TensorNetwork d1 d2 out) :
    Option (List String) :=
  match t.gb with
  | none => some ["gW"]
  | some _ =>
      if t.gV1.isSome && t.gV2.isSome then some ["gW", "gV1", "gV2", "gb"]
      else none

/-- `TensorNetwork.zero_grads`.  Fills `gW` with zeros; when `gb` is
present, also fills `gV1`, `gV2`, `gb` (source checks `self.gb is not
None` only; a fill on an absent `gV1`/`gV2` would raise, modelled as
`none`). -/
def zero_grads {d1 d2 out : ℕ} (t : TensorNetwork d1 d2 out) :
    Option (TensorNetwork d1 d2 out) :=
  let t' := { t with gW := fun _ _ _ => 0 }
  match t.gb with
  | none => some t'
  | some _ =>
      match t.gV1, t.gV2 with
      | some _, some _ =>
          some { t' with
                   gV1 := some fun _ _ => 0
                   gV2 := some fun _ _ => 0
                   gb := some fun _ => 0 }
      | _, _ => none

/-- `TensorNetwork.forward_cpu`.  Inputs are the per-sample flattenings
`e1 = _as_mat(x[0])`, `e2 = _as_mat(x[1])`.  The einsum
`'ij,ik,jkl->il'` is the double contraction below; when `b` is present the
three bias terms are added (a `dot` with an absent `V1`/`V2` would raise,
modelled as `none`). -/
def forward {d1 d2 out : ℕ} (t : TensorNetwork d1 d2 out) {N : ℕ}
    (e1 : Mat N d1) (e2 : Mat N d2) : Option (Mat N out) :=
  let y : Mat N out := fun n l => ∑ j, ∑ k, e1 n j * e2 n k * t.W j k l
  match t.b with
  | none => some y
  | some bb =>
      match t.V1, t.V2 with
      | some v1, some v2 =>
          some fun n l =>
            y n l + (∑ j, e1 n j * v1 j l) + (∑ k, e2 n k * v2 k l) + bb l
      | _, _ => none

/-- `TensorNetwork.backward_cpu`.  Accumulates parameter gradients into the
state's buffers (einsum `'ij,ik,il->jkl'`, `e1.T.dot(gy)`, `e2.T.dot(gy)`,
`gy.sum(0)`) and returns the fresh input gradients (einsum
`'ik,jkl,il->ij'` and `'ij,jkl,il->ik'`, plus `gy.dot(V1.T)` /
`gy.dot(V2.T)` when `b` is present).  An in-place `+=` on an absent buffer
would raise, modelled as `none`. -/
def backward {d1 d2 out : ℕ} (t : TensorNetwork d1 d2 out) {N : ℕ}
    (e1 : Mat N d1) (e2 : Mat N d2) (gy : Mat N out) :
    Option (TensorNetwork d1 d2 out × Mat N d1 × Mat N d2) :=
  let gWnew : Ten d1 d2 out := fun j k l =>
    t.gW j k l + ∑ n, e1 n j * e2 n k * gy n l
  let ge1base : Mat N d1 := fun n j => ∑ k, ∑ l, e2 n k * t.W j k l * gy n l
  let ge2base : Mat N d2 := fun n k => ∑ j, ∑ l, e1 n j * t.W j k l * gy n l
  match t.b with
  | none => some ({ t with gW := gWnew }, ge1base, ge2base)
  | some _ =>
      match t.V1, t.V2, t.gV1, t.gV2, t.gb with
      | some v1, some v2, some gv1, some gv2, some gbv =>
          some ({ t with
                    gW := gWnew
                    gV1 := some fun j l => gv1 j l + ∑ n, e1 n j * gy n l
                    gV2 := some fun k l => gv2 k l + ∑ n, e2 n k * gy n l
                    gb := some fun l => gbv l + ∑ n, gy n l },
                fun n j => ge1base n j + ∑ l, gy n l * v1 j l,
                fun n k => ge2base n k + ∑ l, gy n l * v2 k l)
      | _, _, _, _, _ => none

/-- `_as_vec` applied to a 2-D array: the row-major flattening of an
`(N, d)` matrix, as a flat array indexed by natural numbers
(out-of-range reads, which the source never performs, default to `0`). -/
def asVec {N d : ℕ} (x : Mat N d) : ℕ → ℤ := fun i =>
  if h : i < N * d then
    have hd : 0 < d := Nat.pos_of_ne_zero (by rintro rfl; simp at h)
    x ⟨i / d, Nat.div_lt_of_lt_mul (Nat.mul_comm N d ▸ h)⟩ ⟨i % d, Nat.mod_lt i hd⟩
  else 0

/-- The `row_wise_outer_product` device kernel of `forward_gpu`, computing
`'ij,ik->ijk'` on linearized arrays: entry `i` of the output is
`e1[I*e1c+J] * e2[I*e2c+K]` with `I = i / e1c / e2c`,
`J = (i - I*e1c*e2c) / e2c`, `K = i % e2c`. -/
def rowWiseOuterProduct (e1c e2c : ℕ) (e1 e2 : ℕ → ℤ) : ℕ → ℤ := fun i =>
  let I := i / e1c / e2c
  let J := (i - I * e1c * e2c) / e2c
  let K := i % e2c
  e1 (I * e1c + J) * e2 (I * e2c + K)

/-- The kernel result `e1e2` reshaped to an `(N, d1*d2)` matrix
(`e1e2.reshape(x[0].shape[0], x[0].shape[1]*x[1].shape[1])` in
`forward_gpu`, on 2-D inputs). -/
def outerMat {N d1 d2 : ℕ} (e1 : Mat N d1) (e2 : Mat N d2) :
    Mat N (d1 * d2) := fun n m =>
  rowWiseOuterProduct d1 d2 (asVec e1) (asVec e2) (n.val * (d1 * d2) + m.val)

/-- `W` reshaped to a `(d1*d2, out)` matrix (`W_mat` in `forward_gpu`). -/
def reshapedW {d1 d2 out : ℕ} (W : Ten d1 d2 out) :
    Fin (d1 * d2) → Fin out → ℤ := fun m l =>
  have hd2 : 0 < d2 := Nat.pos_of_ne_zero (by
    rintro rfl
    exact absurd m.isLt (by simp))
  W ⟨m.val / d2, Nat.div_lt_of_lt_mul (Nat.mul_comm d1 d2 ▸ m.isLt)⟩
    ⟨m.val % d2, Nat.mod_lt _ hd2⟩ l

/-- `TensorNetwork.forward_gpu` on 2-D inputs: the outer-product kernel
result reshaped to `(N, d1*d2)`, multiplied by `W` reshaped to
`(d1*d2, out)`; when `b` is present, `add_dot` with `V1` and `V2` and the
`linear_bias` kernel `y[i] += b[i % n_channel]` on the flattened output. -/
def forward_gpu {d1 d2 out : ℕ} (t : TensorNetwork d1 d2 out)
    {N : ℕ} (e1 : Mat N d1) (e2 : Mat N d2) : Option (Mat N out) :=
  let y : Mat N out := fun n l => ∑ m, outerMat e1 e2 n m * reshapedW t.W m l
  match t.b with
  | none => some y
  | some bb =>
      match t.V1, t.V2 with
      | some v1, some v2 =>
          some fun n l =>
            y n l + (∑ j, e1 n j * v1 j l) + (∑ k, e2 n k * v2 k l)
              + bb ⟨(n.val * out + l.val) % out, Nat.mod_lt _ l.pos⟩
      | _, _ => none

/-- `TensorNetwork.check_type_forward`, over dynamic array shapes: exactly
two inputs, each of rank at least 2, equal leading (batch) dimensions, and
the products of the trailing dimensions equal `d1` and `d2`.
`true` means the check passes (no exception raised). -/
def check_type_forward (d1 d2 : ℕ) (in_shapes : List (List ℕ)) : Bool :=
  match in_shapes with
  | [s0, s1] =>
      decide (2 ≤ s0.length) && decide (2 ≤ s1.length)
        && (s0.headD 0 == s1.headD 0)
        && (s0.tail.prod == d1) && (s1.tail.prod == d2)
  | _ => false

/-- `TensorNetwork.check_type_backward`: the body is `pass`, so every
combination of input and output-gradient shapes is accepted and no
exception is ever raised (`true` means the check passes). -/
def check_type_backward (in_shapes : List (List ℕ))
    (out_shapes : List (List ℕ)) : Bool :=
  true

end TensorNetwork

/-- Layer states reachable through the public lifecycle: construction,
`zero_grads`, and (CPU) `backward`; `forward` does not mutate the state. -/
inductive Reachable {d1 d2 out : ℕ} : TensorNetwork d1 d2 out → Prop
  | of_init (nobias : Bool) (initialW : Option (Ten d1 d2 out))
      (initial_bias : Option (Mat d1 out × Mat d2 out × Vec out))
      (sampledW memW : Ten d1 d2 out) (memV1 : Mat d1 out)
      (memV2 : Mat d2 out) (memb : Vec out) :
      Reachable (TensorNetwork.init d1 d2 out nobias initialW initial_bias
        sampledW memW memV1 memV2 memb)
  | of_zero_grads (t t' : TensorNetwork d1 d2 out) :
      Reachable t → t.zero_grads = some t' → Reachable t'
  | of_backward (t t' : TensorNetwork d1 d2 out) {N : ℕ}
      (e1 : Mat N d1) (e2 : Mat N d2) (gy : Mat N out)
      (ge1 : Mat N d1) (ge2 : Mat N d2) :
      Reachable t → t.backward e1 e2 gy = some (t', ge1, ge2) → Reachable t'

section Inversion

variable {d1 d2 out N : ℕ}

/-- Characterization of a successful `backward` call: either no bias terms
are present and only `gW` is accumulated, or all bias parameters and bias
gradient buffers are present and all four accumulators receive their
contraction. -/
lemma backward_inversion {t t' : TensorNetwork d1 d2 out}
    {e1 ge1 : Mat N d1} {e2 ge2 : Mat N d2} {gy : Mat N out}
    (h : t.backward e1 e2 gy = some (t', ge1, ge2)) :
    (t.b = none ∧
      t' = { t with gW := fun j k l => t.gW j k l + ∑ n, e1 n j * e2 n k * gy n l } ∧
      ge1 = (fun n j => ∑ k, ∑ l, e2 n k * t.W j k l * gy n l) ∧
      ge2 = (fun n k => ∑ j, ∑ l, e1 n j * t.W j k l * gy n l)) ∨
    (∃ bb v1 v2 gv1 gv2 gbv,
      t.b = some bb ∧ t.V1 = some v1 ∧ t.V2 = some v2 ∧
      t.gV1 = some gv1 ∧ t.gV2 = some gv2 ∧ t.gb = some gbv ∧
      t' = { t with
               gW := fun j k l => t.gW j k l + ∑ n, e1 n j * e2 n k * gy n l
               gV1 := some fun j l => gv1 j l + ∑ n, e1 n j * gy n l
               gV2 := some fun k l => gv2 k l + ∑ n, e2 n k * gy n l
               gb := some fun l => gbv l + ∑ n, gy n l } ∧
      ge1 = (fun n j =>
        (∑ k, ∑ l, e2 n k * t.W j k l * gy n l) + ∑ l, gy n l * v1 j l) ∧
      ge2 = (fun n k =>
        (∑ j, ∑ l, e1 n j * t.W j k l * gy n l) + ∑ l, gy n l * v2 k l)) := by
  rcases hb : t.b with _ | bb
  · left
    simp only [TensorNetwork.backward, hb, Option.some.injEq, Prod.mk.injEq] at h
    exact ⟨rfl, h.1.symm, h.2.1.symm, h.2.2.symm⟩
  · right
    rcases hv1 : t.V1 with _ | v1 <;> rcases hv2 : t.V2 with _ | v2 <;>
      rcases hg1 : t.gV1 with _ | gv1 <;> rcases hg2 : t.gV2 with _ | gv2 <;>
      rcases hgb : t.gb with _ | gbv <;>
      simp only [TensorNetwork.backward, hb, hv1, hv2, hg1, hg2, hgb,
        Option.some.injEq, Prod.mk.injEq, reduceCtorEq] at h
    exact ⟨bb, v1, v2, gv1, gv2, gbv, rfl, rfl, rfl, rfl, rfl, rfl,
      h.1.symm, h.2.1.symm, h.2.2.symm⟩

/-- Characterization of a successful `zero_grads` call: `gW` is zeroed,
and the bias gradient buffers are zeroed exactly when `gb` is present. -/
lemma zero_grads_inversion {t t' : TensorNetwork d1 d2 out}
    (h : t.zero_grads = some t') :
    (t.gb = none ∧ t' = { t with gW := fun _ _ _ => 0 }) ∨
    (∃ gv1 gv2 gbv,
      t.gV1 = some gv1 ∧ t.gV2 = some gv2 ∧ t.gb = some gbv ∧
      t' = { t with
               gW := fun _ _ _ => 0
               gV1 := some fun _ _ => 0
               gV2 := some fun _ _ => 0
               gb := some fun _ => 0 }) := by
  rcases hgb : t.gb with _ | gbv
  · left
    simp only [TensorNetwork.zero_grads, hgb, Option.some.injEq] at h
    exact ⟨rfl, h.symm⟩
  · right
    rcases hg1 : t.gV1 with _ | gv1 <;> rcases hg2 : t.gV2 with _ | gv2 <;>
      simp only [TensorNetwork.zero_grads, hgb, hg1, hg2, Option.some.injEq,
        reduceCtorEq] at h
    exact ⟨gv1, gv2, gbv, rfl, rfl, rfl, h.symm⟩

end Inversion

section GpuPath

open TensorNetwork

variable {d1 d2 out N : ℕ}

/-- Reading the row-major flattening of an `(N, d)` matrix at flat index
`n*d + j` recovers entry `(n, j)`. -/
lemma asVec_apply {N d : ℕ} (x : Mat N d) (n : Fin N) (j : Fin d) :
    asVec x (n.val * d + j.val) = x n j := by
  have hd : 0 < d := j.pos
  have hlt : n.val * d + j.val < N * d := by
    calc n.val * d + j.val < n.val * d + d := by omega
    _ = (n.val + 1) * d := by ring
    _ ≤ N * d := Nat.mul_le_mul_right d n.isLt
  have hdiv : (n.val * d + j.val) / d = n.val := by
    rw [Nat.mul_comm n.val d, Nat.mul_add_div hd, Nat.div_eq_of_lt j.isLt,
      Nat.add_zero]
  have hmod : (n.val * d + j.val) % d = j.val := by
    rw [Nat.mul_comm n.val d, Nat.mul_add_mod, Nat.mod_eq_of_lt j.isLt]
  simp only [asVec, dif_pos hlt]
  congr 1 <;> exact Fin.ext (by assumption)

/-- Entry `(n, k + d2*j)` of the reshaped kernel output is
`e1[n,j] * e2[n,k]`: the `row_wise_outer_product` kernel computes the
row-wise outer product. -/
lemma outerMat_apply (e1 : Mat N d1) (e2 : Mat N d2) (n : Fin N)
    (j : Fin d1) (k : Fin d2) :
    outerMat e1 e2 n (finProdFinEquiv (j, k)) = e1 n j * e2 n k := by
  have hd2 : 0 < d2 := k.pos
  have hmval : ((finProdFinEquiv (j, k) : Fin (d1 * d2))).val
      = k.val + d2 * j.val := rfl
  have hmlt : k.val + d2 * j.val < d1 * d2 := by
    calc k.val + d2 * j.val < d2 + d2 * j.val := by omega
    _ = d2 * (j.val + 1) := by ring
    _ ≤ d2 * d1 := Nat.mul_le_mul_left d2 j.isLt
    _ = d1 * d2 := Nat.mul_comm d2 d1
  simp only [outerMat, rowWiseOuterProduct, hmval]
  have hI : (n.val * (d1 * d2) + (k.val + d2 * j.val)) / d1 / d2 = n.val := by
    rw [Nat.div_div_eq_div_mul, Nat.mul_comm n.val (d1 * d2),
      Nat.mul_add_div (by omega), Nat.div_eq_of_lt hmlt, Nat.add_zero]
  rw [hI]
  have hJ : (n.val * (d1 * d2) + (k.val + d2 * j.val) - n.val * d1 * d2) / d2
      = j.val := by
    rw [show n.val * (d1 * d2) + (k.val + d2 * j.val) - n.val * d1 * d2
          = k.val + d2 * j.val by rw [Nat.mul_assoc]; omega,
      Nat.add_mul_div_left _ _ hd2, Nat.div_eq_of_lt k.isLt, Nat.zero_add]
  have hK : (n.val * (d1 * d2) + (k.val + d2 * j.val)) % d2 = k.val := by
    rw [show n.val * (d1 * d2) + (k.val + d2 * j.val)
          = k.val + (j.val + n.val * d1) * d2 by ring,
      Nat.add_mul_mod_self_right, Nat.mod_eq_of_lt k.isLt]
  rw [hJ, hK, asVec_apply, asVec_apply]

/-- Entry `(k + d2*j, l)` of `W` reshaped to `(d1*d2, out)` is
`W[j,k,l]`. -/
lemma reshapedW_apply (W : Ten d1 d2 out) (j : Fin d1) (k : Fin d2)
    (l : Fin out) :
    reshapedW W (finProdFinEquiv (j, k)) l = W j k l := by
  have hd2 : 0 < d2 := k.pos
  have hmval : ((finProdFinEquiv (j, k) : Fin (d1 * d2))).val
      = k.val + d2 * j.val := rfl
  have hdiv : (k.val + d2 * j.val) / d2 = j.val := by
    rw [Nat.add_mul_div_left _ _ hd2, Nat.div_eq_of_lt k.isLt, Nat.zero_add]
  have hmod : (k.val + d2 * j.val) % d2 = k.val := by
    rw [Nat.add_mul_mod_self_left, Nat.mod_eq_of_lt k.isLt]
  simp only [reshapedW, hmval]
  congr 1 <;> exact Fin.ext (by assumption)

/-- The `(N, d1*d2) × (d1*d2, out)` matrix multiply of the GPU path equals
the reference double contraction. -/
lemma gpu_matmul_eq (W : Ten d1 d2 out) (e1 : Mat N d1) (e2 : Mat N d2)
    (n : Fin N) (l : Fin out) :
    ∑ m, outerMat e1 e2 n m * reshapedW W m l
      = ∑ j, ∑ k, e1 n j * e2 n k * W j k l := by
  calc ∑ m, outerMat e1 e2 n m * reshapedW W m l
      = ∑ p : Fin d1 × Fin d2, e1 n p.1 * e2 n p.2 * W p.1 p.2 l :=
        (Fintype.sum_equiv finProdFinEquiv
          (fun p => e1 n p.1 * e2 n p.2 * W p.1 p.2 l)
          (fun m => outerMat e1 e2 n m * reshapedW W m l)
          (fun p => by
            obtain ⟨j, k⟩ := p
            simp only
            rw [outerMat_apply, reshapedW_apply])).symm
    _ = ∑ j, ∑ k, e1 n j * e2 n k * W j k l := Fintype.sum_prod_type _

end GpuPath

/-- Concrete 1×1×1 layer with bias terms, all entries 1. -/
def allOne : TensorNetwork 1 1 1 :=
  ⟨fun _ _ _ => 1, some fun _ _ => 1, some fun _ _ => 1, some fun _ => 1,
   fun _ _ _ => 1, some fun _ _ => 1, some fun _ _ => 1, some fun _ => 1⟩

/-- `allOne` after one backward call on all-ones arguments. -/
def allOneStepped : TensorNetwork 1 1 1 :=
  ⟨fun _ _ _ => 1, some fun _ _ => 1, some fun _ _ => 1, some fun _ => 1,
   fun _ _ _ => 2, some fun _ _ => 2, some fun _ _ => 2, some fun _ => 2⟩

/-- Concrete bias-free 1×1×1 layer, all present entries 1. -/
def noBias1 : TensorNetwork 1 1 1 :=
  ⟨fun _ _ _ => 1, none, none, none, fun _ _ _ => 1, none, none, none⟩

/-- Concrete 1×1×1 layer whose bias terms are present but all zero (the
default bias-enabled construction), with `W = 1`. -/
def zeroBias1 : TensorNetwork 1 1 1 :=
  ⟨fun _ _ _ => 1, some fun _ _ => 0, some fun _ _ => 0, some fun _ => 0,
   fun _ _ _ => 1, some fun _ _ => 0, some fun _ _ => 0, some fun _ => 0⟩

/-- `noBias1` after one backward call on all-ones arguments. -/
def noBias1Stepped : TensorNetwork 1 1 1 :=
  ⟨fun _ _ _ => 1, none, none, none, fun _ _ _ => 2, none, none, none⟩

/-- `noBias1Stepped` after `zero_grads`. -/
def noBias1Reset : TensorNetwork 1 1 1 :=
  ⟨fun _ _ _ => 1, none, none, none, fun _ _ _ => 0, none, none, none⟩

/-- All-ones 1×1 batch matrix. -/
def oneM : Mat 1 1 := fun _ _ => 1

/-- All-twos 1×1 batch matrix. -/
def twoM : Mat 1 1 := fun _ _ => 2

open TensorNetwork

/-- Claim C4: the device-parallel forward path (per-sample outer product
`e1⊗e2` as an `(N, d1·d2)` matrix, multiplied by `W` reshaped to
`(d1·d2, out)`, plus the `V1`/`V2` matrix multiplies and the broadcast-add
of `b`) computes the same function as the CPU reference contraction: over
exact arithmetic the two paths produce equal outputs for identical inputs
and parameters. -/
theorem claim_C4_gpu_refines_cpu :
    ∀ (d1 d2 out N : ℕ) (t : TensorNetwork d1 d2 out)
      (e1 : Mat N d1) (e2 : Mat N d2),
      t.forward_gpu e1 e2 = t.forward e1 e2 := by
  intro d1 d2 out N t e1 e2
  have hsum : ∀ (n : Fin N) (l : Fin out),
      ∑ m, outerMat e1 e2 n m * reshapedW t.W m l
        = ∑ j, ∑ k, e1 n j * e2 n k * t.W j k l :=
    fun n l => gpu_matmul_eq t.W e1 e2 n l
  have hbias : ∀ (bb : Vec out) (n : Fin N) (l : Fin out),
      bb ⟨(n.val * out + l.val) % out, Nat.mod_lt _ l.pos⟩ = bb l := by
    intro bb n l
    congr 1
    exact Fin.ext (by
      simp only [Nat.mul_add_mod', Nat.mod_eq_of_lt l.isLt])
  rcases hb : t.b with _ | bb
  · simp only [TensorNetwork.forward_gpu, TensorNetwork.forward, hb]
    exact congrArg some (funext fun n => funext fun l => hsum n l)
  · rcases hv1 : t.V1 with _ | v1 <;> rcases hv2 : t.V2 with _ | v2 <;>
      simp only [TensorNetwork.forward_gpu, TensorNetwork.forward, hb, hv1, hv2]
    exact congrArg some (funext fun n => funext fun l => by
      rw [hsum n l, hbias bb n l])

/-- Claim C1: the forward operation returns `y` of shape `(N, out)` with
`y[n,l] = Σ_j Σ_k e1[n,j]·e2[n,k]·W[j,k,l]`, plus
`Σ_j e1[n,j]·V1[j,l] + Σ_k e2[n,k]·V2[k,l] + b[l]` when bias terms are
present; in particular for `d1=3, d2=2, out=2, N=1`, `e1=[1,0,0]`,
`e2=[1,0]`, no bias, the output is exactly the slice `W[0,0,:]`. -/
theorem claim_C1_forward_contraction :
    (∀ (d1 d2 out N : ℕ) (t : TensorNetwork d1 d2 out)
      (e1 : Mat N d1) (e2 : Mat N d2), t.b = none →
      t.forward e1 e2
        = some fun n l => ∑ j, ∑ k, e1 n j * e2 n k * t.W j k l) ∧
    (∀ (d1 d2 out N : ℕ) (t : TensorNetwork d1 d2 out)
      (e1 : Mat N d1) (e2 : Mat N d2)
      (bb : Vec out) (v1 : Mat d1 out) (v2 : Mat d2 out),
      t.b = some bb → t.V1 = some v1 → t.V2 = some v2 →
      t.forward e1 e2
        = some fun n l =>
            (∑ j, ∑ k, e1 n j * e2 n k * t.W j k l)
              + (∑ j, e1 n j * v1 j l) + (∑ k, e2 n k * v2 k l) + bb l) ∧
    (∀ W : Ten 3 2 2,
      (TensorNetwork.init 3 2 2 true (some W) none W W 0 0 0).forward
          (fun _ j => if j = 0 then 1 else 0) (fun _ k => if k = 0 then 1 else 0)
        = some fun (_ : Fin 1) l => W 0 0 l) := by
  refine ⟨?_, ?_, ?_⟩
  · intro d1 d2 out N t e1 e2 hb
    simp only [TensorNetwork.forward, hb]
  · intro d1 d2 out N t e1 e2 bb v1 v2 hb hv1 hv2
    simp only [TensorNetwork.forward, hb, hv1, hv2]
  · intro W
    have h0 : (TensorNetwork.init 3 2 2 true (some W) none W W 0 0 0).forward
        (fun _ j => if j = 0 then 1 else 0) (fun _ k => if k = 0 then 1 else 0)
        = some fun (n : Fin 1) l => ∑ j, ∑ k,
            (if j = (0 : Fin 3) then (1 : ℤ) else 0)
              * (if k = (0 : Fin 2) then (1 : ℤ) else 0) * W j k l := rfl
    rw [h0]
    refine congrArg some (funext fun n => funext fun l => ?_)
    simp [Fin.sum_univ_succ]

/-- Witness for C1: a concrete bias-free forward call evaluates to the
contraction. -/
theorem claim_C1_witness :
    noBias1.forward (N := 1) (fun _ _ => 3) (fun _ _ => 5)
      = some fun _ _ => 15 := by
  have h := claim_C1_forward_contraction.1 1 1 1 1 noBias1
    (fun _ _ => 3) (fun _ _ => 5) rfl
  rw [h]
  decide

/-- Claim C9: when bias terms are absent, or present but all zero,
forward is linear in each input separately: `forward(a*e1 + c*e1', e2) =
a*forward(e1,e2) + c*forward(e1',e2)`, and symmetrically in the second
argument. -/
theorem claim_C9_bilinearity :
    ∀ (d1 d2 out N : ℕ) (t : TensorNetwork d1 d2 out),
      (t.b = none ∨
        (t.V1 = some (fun _ _ => 0) ∧ t.V2 = some (fun _ _ => 0) ∧
          t.b = some fun _ => 0)) →
    ∀ (a c : ℤ) (e1 e1' : Mat N d1) (e2 e2' : Mat N d2)
      (y1 y2 z2 : Mat N out),
      t.forward e1 e2 = some y1 → t.forward e1' e2 = some y2 →
      t.forward e1 e2' = some z2 →
      (t.forward (fun n j => a * e1 n j + c * e1' n j) e2
        = some fun n l => a * y1 n l + c * y2 n l) ∧
      (t.forward e1 (fun n k => a * e2 n k + c * e2' n k)
        = some fun n l => a * y1 n l + c * z2 n l) := by
  intro d1 d2 out N t hb a c e1 e1' e2 e2' y1 y2 z2 h1 h2 h3
  have hzero : ∀ (f1 : Mat N d1) (f2 : Mat N d2),
      t.forward f1 f2
        = some fun n l => ∑ j, ∑ k, f1 n j * f2 n k * t.W j k l := by
    intro f1 f2
    rcases hb with hbn | ⟨hv1, hv2, hbz⟩
    · simp only [TensorNetwork.forward, hbn]
    · simp only [TensorNetwork.forward, hbz, hv1, hv2]
      refine congrArg some (funext fun n => funext fun l => ?_)
      simp
  rw [hzero] at h1 h2 h3
  obtain rfl : y1 = _ := (Option.some.inj h1).symm
  obtain rfl : y2 = _ := (Option.some.inj h2).symm
  obtain rfl : z2 = _ := (Option.some.inj h3).symm
  constructor <;>
    · rw [hzero]
      refine congrArg some (funext fun n => funext fun l => ?_)
      rw [Finset.mul_sum, Finset.mul_sum, ← Finset.sum_add_distrib]
      refine Finset.sum_congr rfl fun j _ => ?_
      rw [Finset.mul_sum, Finset.mul_sum, ← Finset.sum_add_distrib]
      refine Finset.sum_congr rfl fun k _ => ?_
      ring

/-- Witness for C9: a concrete linear-combination forward call on a layer
whose bias terms are present but all zero. -/
theorem claim_C9_witness :
    zeroBias1.forward (fun n j => 2 * oneM n j + 3 * oneM n j) oneM
      = some fun n l => 2 * oneM n l + 3 * oneM n l :=
  (claim_C9_bilinearity 1 1 1 1 zeroBias1 (Or.inr ⟨rfl, rfl, rfl⟩) 2 3
    oneM oneM oneM oneM oneM oneM oneM
    (by decide) (by decide) (by decide)).1

/-- Claim C2: a successful backward call adds (does not overwrite) into
the gradient accumulators exactly the reference contractions:
`gW[j,k,l] += Σ_n e1[n,j]·e2[n,k]·gy[n,l]`, and when bias terms are
present `gV1[j,l] += Σ_n e1[n,j]·gy[n,l]`,
`gV2[k,l] += Σ_n e2[n,k]·gy[n,l]`, `gb[l] += Σ_n gy[n,l]`. -/
theorem claim_C2_param_grad_accumulation :
    ∀ (d1 d2 out N : ℕ) (t t' : TensorNetwork d1 d2 out)
      (e1 ge1 : Mat N d1) (e2 ge2 : Mat N d2) (gy : Mat N out),
      t.backward e1 e2 gy = some (t', ge1, ge2) →
      (∀ j k l, t'.gW j k l = t.gW j k l + ∑ n, e1 n j * e2 n k * gy n l) ∧
      (∀ bb, t.b = some bb →
        ∃ gv1 gv2 gbv,
          t.gV1 = some gv1 ∧ t.gV2 = some gv2 ∧ t.gb = some gbv ∧
          t'.gV1 = some (fun j l => gv1 j l + ∑ n, e1 n j * gy n l) ∧
          t'.gV2 = some (fun k l => gv2 k l + ∑ n, e2 n k * gy n l) ∧
          t'.gb = some fun l => gbv l + ∑ n, gy n l) := by
  intro d1 d2 out N t t' e1 ge1 e2 ge2 gy h
  rcases backward_inversion h with ⟨hb, rfl, -, -⟩ |
    ⟨bb, v1, v2, gv1, gv2, gbv, hb, hv1, hv2, hg1, hg2, hgb, rfl, -, -⟩
  · refine ⟨fun j k l => rfl, fun bb hbb => ?_⟩
    rw [hb] at hbb
    exact Option.noConfusion hbb
  · exact ⟨fun j k l => rfl,
      fun bb' hbb => ⟨gv1, gv2, gbv, hg1, hg2, hgb, rfl, rfl, rfl⟩⟩

/-- Witness for C2: after a concrete backward call the `gW` accumulator
equals its old value plus the contraction. -/
theorem claim_C2_witness :
    allOneStepped.gW 0 0 0
      = allOne.gW 0 0 0 + ∑ n : Fin 1, oneM n 0 * oneM n 0 * oneM n 0 :=
  (claim_C2_param_grad_accumulation 1 1 1 1 allOne allOneStepped
    oneM twoM oneM twoM oneM (by decide)).1 0 0 0

/-- Claim C3: a successful backward call returns input gradients equal to
the reference rules: `ge1[n,j] = Σ_k Σ_l e2[n,k]·W[j,k,l]·gy[n,l]`
(plus `Σ_l gy[n,l]·V1[j,l]` when bias terms are present), and
symmetrically for `ge2`; they are fresh values, not accumulated. -/
theorem claim_C3_input_grads :
    ∀ (d1 d2 out N : ℕ) (t t' : TensorNetwork d1 d2 out)
      (e1 ge1 : Mat N d1) (e2 ge2 : Mat N d2) (gy : Mat N out),
      t.backward e1 e2 gy = some (t', ge1, ge2) →
      (t.b = none →
        ge1 = (fun n j => ∑ k, ∑ l, e2 n k * t.W j k l * gy n l) ∧
        ge2 = (fun n k => ∑ j, ∑ l, e1 n j * t.W j k l * gy n l)) ∧
      (∀ bb, t.b = some bb →
        ∃ v1 v2, t.V1 = some v1 ∧ t.V2 = some v2 ∧
          ge1 = (fun n j => (∑ k, ∑ l, e2 n k * t.W j k l * gy n l)
            + ∑ l, gy n l * v1 j l) ∧
          ge2 = (fun n k => (∑ j, ∑ l, e1 n j * t.W j k l * gy n l)
            + ∑ l, gy n l * v2 k l)) := by
  intro d1 d2 out N t t' e1 ge1 e2 ge2 gy h
  rcases backward_inversion h with ⟨hb, rfl, rfl, rfl⟩ |
    ⟨bb, v1, v2, gv1, gv2, gbv, hb, hv1, hv2, hg1, hg2, hgb, rfl, rfl, rfl⟩
  · refine ⟨fun _ => ⟨rfl, rfl⟩, fun bb hbb => ?_⟩
    rw [hb] at hbb
    exact Option.noConfusion hbb
  · refine ⟨fun hbn => ?_, fun bb' hbb => ⟨v1, v2, hv1, hv2, rfl, rfl⟩⟩
    rw [hb] at hbn
    exact Option.noConfusion hbn

/-- Witness for C3: a concrete bias-free backward call returns the
reference input gradient. -/
theorem claim_C3_witness :
    oneM = (fun (n : Fin 1) (j : Fin 1) =>
      ∑ k : Fin 1, ∑ l : Fin 1, oneM n k * noBias1.W j k l * oneM n l) :=
  ((claim_C3_input_grads 1 1 1 1 noBias1 noBias1Stepped
    oneM oneM oneM oneM oneM (by decide)).1 rfl).1

/-- Claim C6 (amended): `reset_gradients` followed by one backward call
leaves each existing accumulator holding exactly that call's contribution
(zeros plus the contraction) — equivalently, what a fresh store whose
buffers have been zeroed would hold after its first backward call — and
two backward calls without an intervening reset accumulate the sum of the
two individual contributions on top of the starting contents. -/
theorem claim_C6_reset_additivity :
    (∀ (d1 d2 out N : ℕ) (t t0 t1 : TensorNetwork d1 d2 out)
      (e1 ge1 : Mat N d1) (e2 ge2 : Mat N d2) (gy : Mat N out),
      t.zero_grads = some t0 →
      t0.backward e1 e2 gy = some (t1, ge1, ge2) →
      (∀ j k l, t1.gW j k l = ∑ n, e1 n j * e2 n k * gy n l) ∧
      (∀ bb, t.b = some bb →
        t1.gV1 = some (fun j l => ∑ n, e1 n j * gy n l) ∧
        t1.gV2 = some (fun k l => ∑ n, e2 n k * gy n l) ∧
        t1.gb = some fun l => ∑ n, gy n l)) ∧
    (∀ (d1 d2 out N M : ℕ) (t t1 t2 : TensorNetwork d1 d2 out)
      (e1 ge1 : Mat N d1) (e2 ge2 : Mat N d2) (gy : Mat N out)
      (f1 gf1 : Mat M d1) (f2 gf2 : Mat M d2) (hy : Mat M out),
      t.backward e1 e2 gy = some (t1, ge1, ge2) →
      t1.backward f1 f2 hy = some (t2, gf1, gf2) →
      (∀ j k l, t2.gW j k l = t.gW j k l
        + ((∑ n, e1 n j * e2 n k * gy n l)
            + ∑ n, f1 n j * f2 n k * hy n l)) ∧
      (∀ bb, t.b = some bb →
        ∃ gv1 gv2 gbv,
          t.gV1 = some gv1 ∧ t.gV2 = some gv2 ∧ t.gb = some gbv ∧
          t2.gV1 = some (fun j l => gv1 j l
            + ((∑ n, e1 n j * gy n l) + ∑ n, f1 n j * hy n l)) ∧
          t2.gV2 = some (fun k l => gv2 k l
            + ((∑ n, e2 n k * gy n l) + ∑ n, f2 n k * hy n l)) ∧
          t2.gb = some fun l => gbv l + ((∑ n, gy n l) + ∑ n, hy n l))) := by
  constructor
  · intro d1 d2 out N t t0 t1 e1 ge1 e2 ge2 gy h0 h1
    rcases zero_grads_inversion h0 with ⟨hgb, rfl⟩ |
      ⟨gv1, gv2, gbv, hg1, hg2, hgb, rfl⟩
    · rcases backward_inversion h1 with ⟨hb, rfl, -, -⟩ |
        ⟨bb, v1, v2, gv1', gv2', gbv', hb, hv1, hv2, hg1', hg2', hgb', rfl, -, -⟩
      · refine ⟨fun j k l => zero_add _, fun bb hbb => ?_⟩
        have hb' : t.b = none := hb
        rw [hb'] at hbb
        exact Option.noConfusion hbb
      · have hgb'' : t.gb = some gbv' := hgb'
        rw [hgb] at hgb''
        exact Option.noConfusion hgb''
    · rcases backward_inversion h1 with ⟨hb, rfl, -, -⟩ |
        ⟨bb, v1, v2, gv1', gv2', gbv', hb, hv1, hv2, hg1', hg2', hgb', rfl, -, -⟩
      · refine ⟨fun j k l => zero_add _, fun bb hbb => ?_⟩
        have hb' : t.b = none := hb
        rw [hb'] at hbb
        exact Option.noConfusion hbb
      · have hz1 : (some (fun _ _ => 0) : Option (Mat d1 out)) = some gv1' := hg1'
        have hz2 : (some (fun _ _ => 0) : Option (Mat d2 out)) = some gv2' := hg2'
        have hzb : (some (fun _ => 0) : Option (Vec out)) = some gbv' := hgb'
        obtain rfl : gv1' = fun _ _ => 0 := (Option.some.inj hz1).symm
        obtain rfl : gv2' = fun _ _ => 0 := (Option.some.inj hz2).symm
        obtain rfl : gbv' = fun _ => 0 := (Option.some.inj hzb).symm
        refine ⟨fun j k l => zero_add _, fun bb' hbb => ?_⟩
        exact ⟨congrArg some (funext fun j => funext fun l => zero_add _),
          congrArg some (funext fun k => funext fun l => zero_add _),
          congrArg some (funext fun l => zero_add _)⟩
  · intro d1 d2 out N M t t1 t2 e1 ge1 e2 ge2 gy f1 gf1 f2 gf2 hy h1 h2
    rcases backward_inversion h1 with ⟨hb, rfl, -, -⟩ |
      ⟨bb, v1, v2, gv1, gv2, gbv, hb, hv1, hv2, hg1, hg2, hgb, rfl, -, -⟩
    · rcases backward_inversion h2 with ⟨hb2, rfl, -, -⟩ |
        ⟨bb2, w1, w2, gw1, gw2, gbw, hb2, hw1, hw2, hgw1, hgw2, hgbw, rfl, -, -⟩
      · refine ⟨fun j k l => add_assoc _ _ _, fun bb hbb => ?_⟩
        have hb' : t.b = none := hb
        rw [hb'] at hbb
        exact Option.noConfusion hbb
      · have hb2' : t.b = some bb2 := hb2
        rw [hb] at hb2'
        exact Option.noConfusion hb2'
    · rcases backward_inversion h2 with ⟨hb2, rfl, -, -⟩ |
        ⟨bb2, w1, w2, gw1, gw2, gbw, hb2, hw1, hw2, hgw1, hgw2, hgbw, rfl, -, -⟩
      · have hb2' : t.b = none := hb2
        rw [hb] at hb2'
        exact Option.noConfusion hb2'
      · have hw1' : (some (fun j l => gv1 j l + ∑ n, e1 n j * gy n l) :
            Option (Mat d1 out)) = some gw1 := hgw1
        have hw2' : (some (fun k l => gv2 k l + ∑ n, e2 n k * gy n l) :
            Option (Mat d2 out)) = some gw2 := hgw2
        have hwb' : (some (fun l => gbv l + ∑ n, gy n l) :
            Option (Vec out)) = some gbw := hgbw
        obtain rfl : gw1 = _ := (Option.some.inj hw1').symm
        obtain rfl : gw2 = _ := (Option.some.inj hw2').symm
        obtain rfl : gbw = _ := (Option.some.inj hwb').symm
        refine ⟨fun j k l => add_assoc _ _ _, fun bb' hbb => ?_⟩
        exact ⟨gv1, gv2, gbv, hg1, hg2, hgb,
          congrArg some (funext fun j => funext fun l => add_assoc _ _ _),
          congrArg some (funext fun k => funext fun l => add_assoc _ _ _),
          congrArg some (funext fun l => add_assoc _ _ _)⟩

/-- Witness for C6: a concrete reset-then-backward run whose accumulator
holds exactly the contribution. -/
theorem claim_C6_witness :
    noBias1.gW 0 0 0 = ∑ n : Fin 1, oneM n 0 * oneM n 0 * oneM n 0 :=
  ((claim_C6_reset_additivity.1 1 1 1 1 noBias1Stepped noBias1Reset
    noBias1 oneM oneM oneM oneM oneM (by decide) (by decide)).1) 0 0 0

/-- Counterexample for C6 as stated: with an uninitialized (`empty_like`)
buffer holding 1, `reset_gradients` followed by `backward` yields `gW = 1`
while the fresh store's first `backward` call on the same arguments yields
`gW = 2` — not identical. -/
theorem claim_C6_counterexample :
    Option.map (fun r => r.1.gW 0 0 0)
        ((TensorNetwork.init 1 1 1 true none none (fun _ _ _ => 1)
            (fun _ _ _ => 1) 0 0 0).zero_grads.bind
          (fun t0 => t0.backward (N := 1) (fun _ _ => 1) (fun _ _ => 1)
            (fun _ _ => 1)))
      = some 1 ∧
    Option.map (fun r => r.1.gW 0 0 0)
        ((TensorNetwork.init 1 1 1 true none none (fun _ _ _ => 1)
            (fun _ _ _ => 1) 0 0 0).backward (N := 1) (fun _ _ => 1)
          (fun _ _ => 1) (fun _ _ => 1))
      = some 2 ∧ (1 : ℤ) ≠ 2 := by
  refine ⟨by decide, by decide, by decide⟩

/-- Claim C5 (amended): immediately after construction, `gW` always exists
and `gV1`, `gV2`, `gb` exist exactly when `nobias` is false, each with the
shape of its parameter (enforced by typing); their contents are whatever
the allocator supplies (`empty_like` is uninitialized, not zero-filled);
`reset_gradients` is what zero-fills every existing buffer. -/
theorem claim_C5_grad_buffer_allocation :
    ∀ (d1 d2 out : ℕ) (nobias : Bool) (initialW : Option (Ten d1 d2 out))
      (initial_bias : Option (Mat d1 out × Mat d2 out × Vec out))
      (sampledW memW : Ten d1 d2 out) (memV1 : Mat d1 out)
      (memV2 : Mat d2 out) (memb : Vec out) (t : TensorNetwork d1 d2 out),
      t = TensorNetwork.init d1 d2 out nobias initialW initial_bias
        sampledW memW memV1 memV2 memb →
      t.gW = memW ∧
      (nobias = false → t.gV1 = some memV1 ∧ t.gV2 = some memV2 ∧
        t.gb = some memb ∧
        t.zero_grads = some { t with
          gW := fun _ _ _ => 0
          gV1 := some fun _ _ => 0
          gV2 := some fun _ _ => 0
          gb := some fun _ => 0 }) ∧
      (nobias = true → t.gV1 = none ∧ t.gV2 = none ∧ t.gb = none ∧
        t.zero_grads = some { t with gW := fun _ _ _ => 0 }) := by
  intro d1 d2 out nobias initialW initial_bias sampledW memW memV1 memV2 memb
    t ht
  subst ht
  cases nobias
  · exact ⟨rfl, fun _ => ⟨rfl, rfl, rfl, rfl⟩, fun h => Bool.noConfusion h⟩
  · exact ⟨rfl, fun h => Bool.noConfusion h, fun _ => ⟨rfl, rfl, rfl, rfl⟩⟩

/-- Witness for C5: a concrete construction hands the allocator contents
through to `gV1`. -/
theorem claim_C5_witness :
    (TensorNetwork.init 1 1 1 false none none (fun _ _ _ => 0)
      (fun _ _ _ => 5) (fun _ _ => 7) (fun _ _ => 8) (fun _ => 9)).gV1
      = some fun _ _ => 7 :=
  ((claim_C5_grad_buffer_allocation 1 1 1 false none none (fun _ _ _ => 0)
    (fun _ _ _ => 5) (fun _ _ => 7) (fun _ _ => 8) (fun _ => 9) _
    rfl).2.1 rfl).1

/-- Counterexample for C5 as stated: a freshly constructed layer whose
`empty_like` buffer holds 1 has a nonzero `gW`, so gradient accumulators
are not zero-filled at construction. -/
theorem claim_C5_counterexample :
    ¬ (∀ j k l : Fin 1,
      (TensorNetwork.init 1 1 1 false none none (fun _ _ _ => 0)
        (fun _ _ _ => 1) (fun _ _ => 1) (fun _ _ => 1) (fun _ => 1)).gW j k l
        = 0) := by
  decide

/-- Claim C7 (amended): `check_type_backward` performs no validation at
all — every combination of input shapes and output-gradient shapes is
accepted, so no `ShapeError` is raised when `grad_y`'s shape differs from
`(N, out)`. -/
theorem claim_C7_backward_unchecked :
    ∀ (in_shapes out_shapes : List (List ℕ)),
      TensorNetwork.check_type_backward in_shapes out_shapes = true :=
  fun _ _ => rfl

/-- Counterexample for C7 as stated: with input shapes `(1,2)`, `(1,3)`
and `out = 2`, a `grad_y` of shape `(1,3)` differs from `(N, out) = (1,2)`
yet the backward type check accepts it (the claimed equivalence between
failing and shape mismatch is false). -/
theorem claim_C7_counterexample :
    ¬ ((TensorNetwork.check_type_backward [[1, 2], [1, 3]] [[1, 3]] = false)
        ↔ [1, 3] ≠ [1, 2]) := by
  decide

/-- Presence of the optional buffers is aligned in every reachable state:
`V1`/`V2` are present exactly when `b` is, and `gV1`/`gV2` exactly when
`gb` is. -/
lemma reachable_presence {d1 d2 out : ℕ} {t : TensorNetwork d1 d2 out}
    (h : Reachable t) :
    t.V1.isSome = t.b.isSome ∧ t.V2.isSome = t.b.isSome ∧
    t.gV1.isSome = t.gb.isSome ∧ t.gV2.isSome = t.gb.isSome := by
  induction h with
  | of_init nobias initialW initial_bias sampledW memW memV1 memV2 memb =>
      rcases initial_bias with _ | ⟨v1, v2, bb⟩ <;> cases nobias <;>
        simp [TensorNetwork.init]
  | of_zero_grads t t' hr h ih =>
      rcases zero_grads_inversion h with ⟨hgb, rfl⟩ |
        ⟨gv1, gv2, gbv, hg1, hg2, hgb, rfl⟩ <;> simp_all
  | of_backward t t' e1 e2 gy ge1 ge2 hr h ih =>
      rcases backward_inversion h with ⟨hb, rfl, -, -⟩ |
        ⟨bb, v1, v2, gv1, gv2, gbv, hb, hv1, hv2, hg1, hg2, hgb, rfl, -, -⟩ <;>
        simp_all

/-- Claim C8: in every reachable state the presence of `b` is the single
source of truth for bias terms: `V1`, `V2`, `b` are present or absent
together, `parameter_names` is `('W',)` when `b` is absent and
`('W','V1','V2','b')` when present, and `gradient_names` is `('gW',)` or
`('gW','gV1','gV2','gb')` according to the bias gradient buffers. -/
theorem claim_C8_bias_presence :
    ∀ (d1 d2 out : ℕ) (t : TensorNetwork d1 d2 out), Reachable t →
      (t.V1.isSome = t.b.isSome ∧ t.V2.isSome = t.b.isSome) ∧
      (t.b = none → t.parameter_names = some ["W"]) ∧
      (∀ bb, t.b = some bb →
        t.parameter_names = some ["W", "V1", "V2", "b"]) ∧
      (t.gb = none → t.gradient_names = some ["gW"]) ∧
      (∀ gbv, t.gb = some gbv →
        t.gradient_names = some ["gW", "gV1", "gV2", "gb"]) := by
  intro d1 d2 out t h
  obtain ⟨h1, h2, h3, h4⟩ := reachable_presence h
  refine ⟨⟨h1, h2⟩, ?_, ?_, ?_, ?_⟩
  · intro hb
    simp [TensorNetwork.parameter_names, hb]
  · intro bb hb
    rw [hb] at h1 h2
    simp only [Option.isSome_some] at h1 h2
    simp [TensorNetwork.parameter_names, hb, h1, h2]
  · intro hgb
    simp [TensorNetwork.gradient_names, hgb]
  · intro gbv hgb
    rw [hgb] at h3 h4
    simp only [Option.isSome_some] at h3 h4
    simp [TensorNetwork.gradient_names, hgb, h3, h4]

/-- Witness for C8: a reachable state with bias reports all four
parameter names. -/
theorem claim_C8_witness :
    (TensorNetwork.init 1 1 1 false none none (fun _ _ _ => 0)
      (fun _ _ _ => 0) (fun _ _ => 0) (fun _ _ => 0)
      (fun _ => 0)).parameter_names = some ["W", "V1", "V2", "b"] :=
  (claim_C8_bias_presence 1 1 1 _
    (Reachable.of_init false none none (fun _ _ _ => 0) (fun _ _ _ => 0)
      (fun _ _ => 0) (fun _ _ => 0) (fun _ => 0))).2.2.1 (fun _ => 0) rfl

/-- Claim C10: constructing with `nobias=True` and an explicit
`initial_bias` triple adopts `V1`, `V2`, `b` as parameters but allocates
no gradient buffers for them; `parameter_names` then reports four names
while `gradient_names` reports only `('gW',)`, and `zero_grads` zeroes
only `gW` — the parameter/gradient pairing is broken. -/
theorem claim_C10_nobias_with_bias_triple :
    ∀ (d1 d2 out : ℕ) (initialW : Option (Ten d1 d2 out))
      (v1 : Mat d1 out) (v2 : Mat d2 out) (bb : Vec out)
      (sampledW memW : Ten d1 d2 out) (memV1 : Mat d1 out)
      (memV2 : Mat d2 out) (memb : Vec out) (t : TensorNetwork d1 d2 out),
      t = TensorNetwork.init d1 d2 out true initialW (some (v1, v2, bb))
        sampledW memW memV1 memV2 memb →
      t.V1 = some v1 ∧ t.V2 = some v2 ∧ t.b = some bb ∧
      t.gV1 = none ∧ t.gV2 = none ∧ t.gb = none ∧
      t.parameter_names = some ["W", "V1", "V2", "b"] ∧
      t.gradient_names = some ["gW"] ∧
      t.zero_grads = some { t with gW := fun _ _ _ => 0 } := by
  intro d1 d2 out initialW v1 v2 bb sampledW memW memV1 memV2 memb t ht
  subst ht
  exact ⟨rfl, rfl, rfl, rfl, rfl, rfl, rfl, rfl, rfl⟩

/-- Witness for C10: a concrete broken state reports four parameter names
but a single gradient name. -/
theorem claim_C10_witness :
    (TensorNetwork.init 1 1 1 true none (some (oneM, oneM, fun _ => 1))
      (fun _ _ _ => 0) (fun _ _ _ => 0) (fun _ _ => 0) (fun _ _ => 0)
      (fun _ => 0)).gradient_names = some ["gW"] :=
  (claim_C10_nobias_with_bias_triple 1 1 1 none oneM oneM (fun _ => 1)
    (fun _ _ _ => 0) (fun _ _ _ => 0) (fun _ _ => 0) (fun _ _ => 0)
    (fun _ => 0) _ rfl).2.2.2.2.2.2.2.1

end TensorNet
